import Mathlib

/-!
Verification of the checkout shipping-form components:
`mapAddressToFormValues.ts`, `SingleShippingForm.tsx`, `MultiShippingForm.tsx`
and `getCustomFormFieldsValidationSchema` (custom form-field schema module).

JavaScript runtime values that flow through the address mappers are embedded
as the inductive `JVal` (string / array-of-strings / number / Date), with
`Option JVal` standing for a possibly-`undefined`/`null` value.
-/

/-- A JavaScript `Date` value as produced by the two constructor calls that the
address mapper performs: `new Date(y, m, d)` and `new Date(dateString)`. -/
inductive DateVal
  | ofYMD (year month day : Int)
  | ofString (s : String)
deriving DecidableEq, Repr

/-- A runtime value stored in an address or a form-value record:
`string | string[] | number | Date`. -/
inductive JVal
  | str (s : String)
  | list (l : List String)
  | num (n : Int)
  | date (d : DateVal)
deriving DecidableEq, Repr

/-- `true` iff the value is a plain string. -/
def JVal.isStr : JVal → Bool
  | .str _ => true
  | _ => false

/-- JavaScript object property update: overwrite the binding if the key is
present, otherwise append it. -/
def alSet {α : Type} : List (String × α) → String → α → List (String × α)
  | [], k, v => [(k, v)]
  | (k', v') :: rest, k, v =>
      if k' = k then (k, v) :: rest else (k', v') :: alSet rest k v

/-- JavaScript object property read: `none` is `undefined`. -/
def alGet {α : Type} : List (String × α) → String → Option α
  | [], _ => none
  | (k', v') :: rest, k => if k' = k then some v' else alGet rest k

/-- Field metadata (`FormField` from the checkout SDK): `defaultValue` embeds
the optional `default` property, `ftype` the legacy `type` property that the
custom-field reset loops consult. -/
structure FormField where
  name : String
  custom : Bool
  fieldType : Option String
  defaultValue : Option String
  ftype : Option String := none
  required : Bool := false
deriving DecidableEq, Repr

/-- An `Address` record: system properties accessed as `address[name]`, the
`customFields` array, and the optional `shouldSaveAddress` flag. -/
structure Address where
  fields : List (String × JVal)
  customFields : List (String × JVal)
  shouldSaveAddress : Option Bool := none
deriving DecidableEq, Repr

/-- `DynamicFormFieldType.checkbox` (modelled from the spec field-type enum;
the enum module itself is outside the provided sources). -/
def checkboxFieldType : String := "checkbox"

/-- `DynamicFormFieldType.date`. -/
def dateFieldType : String := "date"

/-- `DynamicFormFieldType.dropdown`. -/
def dropdownFieldType : String := "dropdown"

/-- `DynamicFormFieldType.integer`. -/
def integerFieldType : String := "integer"

/-- JavaScript truthiness of an optional string (`undefined` and `''` are
falsy). -/
def strTruthy : Option String → Bool
  | some s => s ≠ ""
  | none => false

/-- `getDefaultValue(fieldType, defaultValue)` from `mapAddressToFormValues.ts`. -/
def getDefaultValue (fieldType : Option String) (defaultValue : Option String) : JVal :=
  if strTruthy defaultValue && fieldType == some dateFieldType then
    .date (.ofString (defaultValue.getD ""))
  else if fieldType == some checkboxFieldType then
    .list []
  else
    .str (defaultValue.getD "")

/-- The date parse in `getValue`: split on `-`, take year/month/day,
`new Date(Number(year), Number(month) - 1, Number(day))`. -/
def parseYMD (s : String) : DateVal :=
  let ps := s.splitOn "-"
  .ofYMD ((ps.getD 0 "").toInt?.getD 0)
    (((ps.getD 1 "").toInt?.getD 0) - 1)
    ((ps.getD 2 "").toInt?.getD 0)

/-- `getValue(fieldType, fieldValue, defaultValue)` from
`mapAddressToFormValues.ts`; the `none` result is the one `return undefined`. -/
def getValue (fieldType : Option String) (fieldValue : Option JVal)
    (defaultValue : Option String) : Option JVal :=
  match fieldValue with
  | none => some (getDefaultValue fieldType defaultValue)
  | some fv =>
      if fieldType == some dateFieldType then
        match fv with
        | .str s => if s ≠ "" then some (.date (parseYMD s)) else none
        | _ => some fv
      else
        some fv

/-- A `Date`'s `toString()` rendering (never the empty string). -/
def dateToString : DateVal → String
  | .ofYMD y m d => "Date(" ++ toString y ++ "," ++ toString m ++ "," ++ toString d ++ ")"
  | .ofString s => "Date(" ++ s ++ ")"

/-- JavaScript `toString()` on the embedded values: arrays join with commas,
numbers print in decimal. -/
def jsToString : JVal → String
  | .str s => s
  | .list l => String.intercalate "," l
  | .num n => toString n
  | .date d => dateToString d

/-- `getValue(...)?.toString() || ''`: `undefined` and the empty rendering
both collapse to `''`. -/
def jsToStringOrEmpty : Option JVal → String
  | none => ""
  | some v => jsToString v

/-- `isSystemAddressFieldName(fieldName)` from `mapAddressToFormValues.ts`. -/
def isSystemAddressFieldName (fieldName : String) : Bool :=
  fieldName ≠ "customFields" && fieldName ≠ "shouldSaveAddress"

/-- The accumulator object built by the `fields.reduce` in
`mapAddressToFormValues`: `customFields` starts absent and is created lazily. -/
structure AccValues where
  system : List (String × JVal)
  customFields : Option (List (String × JVal))
deriving DecidableEq, Repr

/-- The value the reduce assigns to a custom field, branch for branch:
checkbox first, then date (default only when truthy), then dropdown with a
truthy default, else the empty string. -/
def customFieldInit (f : FormField) : JVal :=
  if f.fieldType == some checkboxFieldType then
    .list []
  else if f.fieldType == some dateFieldType then
    if strTruthy f.defaultValue then getDefaultValue f.fieldType f.defaultValue
    else .str ""
  else if f.fieldType == some dropdownFieldType && strTruthy f.defaultValue then
    .str (f.defaultValue.getD "")
  else
    .str ""

/-- One step of the `fields.reduce` in `mapAddressToFormValues`. -/
def mapStep (address : Option Address) (acc : AccValues) (f : FormField) : AccValues :=
  if f.custom then
    { acc with
      customFields := some (alSet (acc.customFields.getD []) f.name (customFieldInit f)) }
  else if isSystemAddressFieldName f.name then
    let fieldValue := address.bind fun a => alGet a.fields f.name
    { acc with
      system :=
        alSet acc.system f.name
          (.str (jsToStringOrEmpty (getValue f.fieldType fieldValue f.defaultValue))) }
  else
    acc

/-- The mapper's result: flat system form values, the optional `customFields`
sub-object, and the always-set `shouldSaveAddress` boolean. -/
structure AddressFormValues where
  system : List (String × JVal)
  customFields : Option (List (String × JVal))
  shouldSaveAddress : Bool
deriving DecidableEq, Repr

/-- One backfill step at the tail of the mapper:
`if (values[k] === undefined) values[k] = ''`. -/
def backfill (sys : List (String × JVal)) (k : String) : List (String × JVal) :=
  if (alGet sys k).isNone then alSet sys k (.str "") else sys

/-- `mapAddressToFormValues(fields, address)` from
`mapAddressToFormValues.ts`: the reduce over the field list, the
`shouldSaveAddress` defaulting, and the two state-or-province backfills. -/
def mapAddressToFormValues (fields : List FormField) (address : Option Address) :
    AddressFormValues :=
  let acc := fields.foldl (mapStep address) ⟨[], none⟩
  let ssa :=
    match address with
    | some a => match a.shouldSaveAddress with | some b => b | none => true
    | none => true
  let sys2 := backfill (backfill acc.system "stateOrProvince") "stateOrProvinceCode"
  ⟨sys2, acc.customFields, ssa⟩

/-- Spec-side description of the custom-field sub-object: built from the field
list alone (checkbox → empty list; date → parsed configured default when a
non-empty one exists, else `''`; dropdown → configured default when a
non-empty one exists, else `''`; all others → `''`). -/
def specCustomFieldValue (f : FormField) : JVal :=
  if f.fieldType == some checkboxFieldType then
    .list []
  else if f.fieldType == some dateFieldType then
    if strTruthy f.defaultValue then .date (.ofString (f.defaultValue.getD ""))
    else .str ""
  else if f.fieldType == some dropdownFieldType then
    if strTruthy f.defaultValue then .str (f.defaultValue.getD "") else .str ""
  else
    .str ""

/-- Spec-side custom-field sub-object for a whole field list: a function of
the field metadata only, never of any address. -/
def specCustomFields (fields : List FormField) : Option (List (String × JVal)) :=
  fields.foldl
    (fun acc f =>
      if f.custom then some (alSet (acc.getD []) f.name (specCustomFieldValue f)) else acc)
    none

lemma alGet_alSet_self {α : Type} (l : List (String × α)) (k : String) (v : α) :
    alGet (alSet l k v) k = some v := by
  induction l with
  | nil => simp [alSet, alGet]
  | cons p rest ih =>
      obtain ⟨k', v'⟩ := p
      by_cases h : k' = k
      · simp [alSet, alGet, h]
      · simp [alSet, alGet, h, ih]

lemma alGet_alSet_other {α : Type} (l : List (String × α)) (k k' : String) (v : α)
    (h : k' ≠ k) : alGet (alSet l k' v) k = alGet l k := by
  induction l with
  | nil =>
      simp only [alSet, alGet]
      rw [if_neg h]
  | cons p rest ih =>
      obtain ⟨k₀, v₀⟩ := p
      by_cases h₀ : k₀ = k'
      · subst h₀
        simp only [alSet, if_pos rfl, alGet]
        rw [if_neg h, if_neg h]
      · simp only [alSet, if_neg h₀, alGet]
        by_cases h₁ : k₀ = k
        · rw [if_pos h₁, if_pos h₁]
        · rw [if_neg h₁, if_neg h₁, ih]

lemma alSet_mem {α : Type} (l : List (String × α)) (k : String) (v : α) :
    ∀ p ∈ alSet l k v, p = (k, v) ∨ p ∈ l := by
  induction l with
  | nil =>
      intro p hp
      simp only [alSet, List.mem_singleton] at hp
      exact Or.inl hp
  | cons q rest ih =>
      obtain ⟨k', v'⟩ := q
      intro p hp
      by_cases h : k' = k
      · simp only [alSet, if_pos h] at hp
        rcases List.mem_cons.mp hp with h1 | h1
        · exact Or.inl h1
        · exact Or.inr (List.mem_cons_of_mem _ h1)
      · simp only [alSet, if_neg h] at hp
        rcases List.mem_cons.mp hp with h1 | h1
        · exact Or.inr (h1 ▸ List.mem_cons_self _ _)
        · rcases ih p h1 with h2 | h2
          · exact Or.inl h2
          · exact Or.inr (List.mem_cons_of_mem _ h2)

lemma customFieldInit_eq_spec (f : FormField) :
    customFieldInit f = specCustomFieldValue f := by
  unfold customFieldInit specCustomFieldValue getDefaultValue
  split_ifs <;> simp_all

lemma foldl_customFields (fields : List FormField) (address : Option Address)
    (acc : AccValues) :
    (fields.foldl (mapStep address) acc).customFields =
      fields.foldl
        (fun a f =>
          if f.custom then some (alSet (a.getD []) f.name (specCustomFieldValue f)) else a)
        acc.customFields := by
  induction fields generalizing acc with
  | nil => rfl
  | cons f rest ih =>
      simp only [List.foldl_cons]
      rw [ih]
      congr 1
      unfold mapStep
      by_cases hc : f.custom
      · simp [hc, customFieldInit_eq_spec]
      · by_cases hs : isSystemAddressFieldName f.name <;> simp [hc, hs]

lemma mapped_customFields_spec (fields : List FormField) (address : Option Address) :
    (mapAddressToFormValues fields address).customFields = specCustomFields fields := by
  unfold mapAddressToFormValues specCustomFields
  exact foldl_customFields fields address ⟨[], none⟩

/-- C1: for every field list and every address (with or without custom-field
data), the custom-field sub-object of `mapAddressToFormValues` is
`specCustomFields fields` — a function of the field metadata alone, assigning
each custom field its type default: empty list for checkbox, the configured
(non-empty) default for dropdown, the configured (non-empty) default parsed as
a date for date fields, and the empty string otherwise. No custom-field value
is ever carried over from the input address. -/
theorem customFields_independent_of_address (fields : List FormField)
    (address : Option Address) :
    (mapAddressToFormValues fields address).customFields = specCustomFields fields :=
  mapped_customFields_spec fields address

/-- `true` when the address is absent or lacks the given system property
(`address[name] === undefined`). -/
def addressValueMissing (address : Option Address) (k : String) : Bool :=
  match address with
  | none => true
  | some a => (alGet a.fields k).isNone

lemma defaultValue_empty (ft : Option String) (dv : Option String)
    (h : strTruthy dv = false) : jsToStringOrEmpty (getValue ft none dv) = "" := by
  have hdv : dv.getD "" = "" := by
    cases dv with
    | none => rfl
    | some s =>
        simp only [strTruthy, decide_eq_false_iff_not, Decidable.not_not] at h
        simp [h]
  unfold getValue getDefaultValue jsToStringOrEmpty jsToString
  rw [h]
  simp only [Bool.false_and, if_false, Bool.false_eq_true]
  by_cases hcb : ft == some checkboxFieldType
  · simp [hcb, String.intercalate]
  · simp [hcb, hdv]

lemma foldl_system_entry (k : String) (address : Option Address)
    (h1 : addressValueMissing address k = true)
    (fields : List FormField) (acc : AccValues)
    (h2 : ∀ f ∈ fields, f.custom = false → f.name = k → strTruthy f.defaultValue = false)
    (h3 : alGet acc.system k = none ∨ alGet acc.system k = some (.str "")) :
    alGet (fields.foldl (mapStep address) acc).system k = none ∨
      alGet (fields.foldl (mapStep address) acc).system k = some (.str "") := by
  induction fields generalizing acc with
  | nil => exact h3
  | cons f rest ih =>
      simp only [List.foldl_cons]
      refine ih _ (fun g hg => h2 g (List.mem_cons_of_mem _ hg)) ?_
      unfold mapStep
      by_cases hc : f.custom = true
      · rw [if_pos hc]
        exact h3
      · rw [if_neg hc]
        by_cases hs : isSystemAddressFieldName f.name = true
        · rw [if_pos hs]
          by_cases hn : f.name = k
          · subst hn
            right
            rw [alGet_alSet_self]
            have hfv : (address.bind fun a => alGet a.fields f.name) = none := by
              cases address with
              | none => rfl
              | some a =>
                  simp only [addressValueMissing, Option.isNone_iff_eq_none] at h1
                  simp [h1]
            rw [hfv,
              defaultValue_empty f.fieldType f.defaultValue
                (h2 f (List.mem_cons_self _ _) (Bool.not_eq_true _ ▸ hc) rfl)]
          · rw [alGet_alSet_other _ _ _ _ hn]
            exact h3
        · rw [if_neg hs]
          exact h3

lemma alGet_backfill_same (sys : List (String × JVal)) (k : String)
    (h : alGet sys k = none ∨ alGet sys k = some (.str "")) :
    alGet (backfill sys k) k = some (.str "") := by
  unfold backfill
  rcases h with h | h
  · rw [h]
    simpa using alGet_alSet_self sys k (.str "")
  · rw [h]
    simpa using h

lemma alGet_backfill_other (sys : List (String × JVal)) (k k' : String) (h : k ≠ k') :
    alGet (backfill sys k) k' = alGet sys k' := by
  unfold backfill
  split
  · exact alGet_alSet_other _ _ _ _ h
  · rfl

lemma mapped_entry_backfilled (fields : List FormField) (address : Option Address)
    (h1 : addressValueMissing address "stateOrProvince" = true)
    (h2 : ∀ f ∈ fields, f.custom = false → f.name = "stateOrProvince" →
        strTruthy f.defaultValue = false) :
    alGet (mapAddressToFormValues fields address).system "stateOrProvince" =
      some (JVal.str "") := by
  have hmain := foldl_system_entry "stateOrProvince" address h1 fields ⟨[], none⟩ h2 (Or.inl rfl)
  show alGet
      (backfill (backfill (fields.foldl (mapStep address) ⟨[], none⟩).system "stateOrProvince")
        "stateOrProvinceCode") "stateOrProvince" = some (JVal.str "")
  rw [alGet_backfill_other _ _ _ (by decide)]
  exact alGet_backfill_same _ _ hmain

lemma mapped_entry_code_backfilled (fields : List FormField) (address : Option Address)
    (h1 : addressValueMissing address "stateOrProvinceCode" = true)
    (h2 : ∀ f ∈ fields, f.custom = false → f.name = "stateOrProvinceCode" →
        strTruthy f.defaultValue = false) :
    alGet (mapAddressToFormValues fields address).system "stateOrProvinceCode" =
      some (JVal.str "") := by
  have hmain :=
    foldl_system_entry "stateOrProvinceCode" address h1 fields ⟨[], none⟩ h2 (Or.inl rfl)
  show alGet
      (backfill (backfill (fields.foldl (mapStep address) ⟨[], none⟩).system "stateOrProvince")
        "stateOrProvinceCode") "stateOrProvinceCode" = some (JVal.str "")
  apply alGet_backfill_same
  rw [alGet_backfill_other _ _ _ (by decide)]
  exact hmain

/-- C9 counterexample: a non-custom `stateOrProvince` field with configured
default `"CA"` and no input address maps to `"CA"`, not to the empty string
the claim asserts for every field list. -/
theorem stateOrProvince_default_counterexample :
    alGet
        (mapAddressToFormValues
          [⟨"stateOrProvince", false, some "text", some "CA", none, false⟩] none).system
        "stateOrProvince" = some (JVal.str "CA") ∧
      alGet
          (mapAddressToFormValues
            [⟨"stateOrProvince", false, some "text", some "CA", none, false⟩] none).system
          "stateOrProvince" ≠ some (JVal.str "") := by
  constructor <;> decide

/-- C9 (amended): when `stateOrProvince` (resp. `stateOrProvinceCode`) is
undefined on the input address — including the absent address — and the field
list configures no non-empty default for that non-custom field, the mapped
value is the string `''`, never `undefined`. -/
theorem stateOrProvince_mapped_to_empty_string (fields : List FormField)
    (address : Option Address) :
    (addressValueMissing address "stateOrProvince" = true →
      (∀ f ∈ fields, f.custom = false → f.name = "stateOrProvince" →
          strTruthy f.defaultValue = false) →
      alGet (mapAddressToFormValues fields address).system "stateOrProvince" =
        some (JVal.str "")) ∧
      (addressValueMissing address "stateOrProvinceCode" = true →
        (∀ f ∈ fields, f.custom = false → f.name = "stateOrProvinceCode" →
            strTruthy f.defaultValue = false) →
        alGet (mapAddressToFormValues fields address).system "stateOrProvinceCode" =
          some (JVal.str "")) :=
  ⟨fun h1 h2 => mapped_entry_backfilled fields address h1 h2,
    fun h1 h2 => mapped_entry_code_backfilled fields address h1 h2⟩

/-- Closed instance of the amended C9 theorem at a concrete field list and the
absent address. -/
theorem stateOrProvince_mapped_to_empty_string_witness :
    alGet
        (mapAddressToFormValues [⟨"city", false, some "text", none, none, false⟩] none).system
        "stateOrProvince" = some (JVal.str "") ∧
      alGet
          (mapAddressToFormValues [⟨"city", false, some "text", none, none, false⟩] none).system
          "stateOrProvinceCode" = some (JVal.str "") :=
  ⟨(stateOrProvince_mapped_to_empty_string
        [⟨"city", false, some "text", none, none, false⟩] none).1 (by decide) (by decide),
    (stateOrProvince_mapped_to_empty_string
        [⟨"city", false, some "text", none, none, false⟩] none).2 (by decide) (by decide)⟩

lemma foldl_system_isStr (fields : List FormField) (address : Option Address)
    (acc : AccValues) (h : ∀ p ∈ acc.system, (p.2).isStr = true) :
    ∀ p ∈ (fields.foldl (mapStep address) acc).system, (p.2).isStr = true := by
  induction fields generalizing acc with
  | nil => exact h
  | cons f rest ih =>
      simp only [List.foldl_cons]
      refine ih _ ?_
      unfold mapStep
      by_cases hc : f.custom = true
      · rw [if_pos hc]
        exact h
      · rw [if_neg hc]
        by_cases hs : isSystemAddressFieldName f.name = true
        · rw [if_pos hs]
          intro p hp
          rcases alSet_mem _ _ _ p hp with h1 | h1
          · rw [h1]
            rfl
          · exact h p h1
        · rw [if_neg hs]
          exact h

lemma backfill_isStr (sys : List (String × JVal)) (k : String)
    (h : ∀ p ∈ sys, (p.2).isStr = true) :
    ∀ p ∈ backfill sys k, (p.2).isStr = true := by
  unfold backfill
  split
  · intro p hp
    rcases alSet_mem _ _ _ p hp with h1 | h1
    · rw [h1]
      rfl
    · exact h p h1
  · exact h

/-- C10: every non-custom entry of the mapped form values is a plain string —
date and checkbox values are coerced through `toString()` with `''` as
fallback, so a system entry is never a `Date`, an array, or `undefined`
(`shouldSaveAddress` lives outside this map as a boolean) — whereas a custom
date field with a non-empty configured default is mapped to an actual `Date`
value. -/
theorem system_values_strings_custom_date_is_date (fields : List FormField)
    (address : Option Address) :
    (∀ p ∈ (mapAddressToFormValues fields address).system, (p.2).isStr = true) ∧
      ∀ f : FormField, f.custom = true → f.fieldType = some dateFieldType →
        strTruthy f.defaultValue = true →
        alGet ((mapAddressToFormValues (fields ++ [f]) address).customFields.getD []) f.name =
          some (JVal.date (.ofString (f.defaultValue.getD ""))) := by
  constructor
  · show ∀ p ∈
        backfill (backfill (fields.foldl (mapStep address) ⟨[], none⟩).system "stateOrProvince")
          "stateOrProvinceCode", (p.2).isStr = true
    apply backfill_isStr
    apply backfill_isStr
    apply foldl_system_isStr
    intro p hp
    exact absurd hp (List.not_mem_nil p)
  · intro f hc hd hdef
    rw [mapped_customFields_spec]
    unfold specCustomFields
    rw [List.foldl_append]
    simp only [List.foldl_cons, List.foldl_nil, hc, if_pos]
    have hval : specCustomFieldValue f = JVal.date (.ofString (f.defaultValue.getD "")) := by
      unfold specCustomFieldValue
      rw [hd, hdef]
      simp [dateFieldType, checkboxFieldType]
    rw [hval, Option.getD_some]
    exact alGet_alSet_self _ _ _

/-- Closed instance of the C10 theorem: a custom date field with configured
default `2020-01-02` maps to the parsed `Date`. -/
theorem system_values_strings_witness :
    alGet
        ((mapAddressToFormValues
            ([] ++ [(⟨"dob", true, some dateFieldType, some "2020-01-02", none, false⟩ :
              FormField)]) none).customFields.getD [])
        "dob" = some (JVal.date (.ofString "2020-01-02")) :=
  (system_values_strings_custom_date_is_date [] none).2
    ⟨"dob", true, some dateFieldType, some "2020-01-02", none, false⟩ rfl rfl (by decide)

/-- Modelled from the spec: `PaymentMethodId.BraintreeAcceleratedCheckout`
(the payment-method identifier enum is outside the provided sources). -/
def braintreeAcceleratedCheckoutId : String := "braintreeacceleratedcheckout"

/-- Modelled from the spec: `PaymentMethodId.PayPalCommerceAcceleratedCheckout`. -/
def payPalCommerceAcceleratedCheckoutId : String := "paypalcommerceacceleratedcheckout"

/-- The fixed exclusion set `methodIdsWithoutCustomValidation` from
`SingleShippingForm.tsx`. -/
def methodIdsWithoutCustomValidation : List String :=
  [braintreeAcceleratedCheckoutId, payPalCommerceAcceleratedCheckoutId]

/-- `shouldHaveCustomValidation(methodId)` from `SingleShippingForm.tsx`:
`Boolean(methodId && !methodIdsWithoutCustomValidation.includes(methodId))`. -/
def shouldHaveCustomValidation (methodId : Option String) : Bool :=
  match methodId with
  | some m => m ≠ "" && !(decide (m ∈ methodIdsWithoutCustomValidation))
  | none => false

/-- Which of the two yup schemas the `validationSchema` factory in
`SingleShippingForm.tsx` builds for the shipping address. -/
inductive SchemaChoice
  | relaxedCustomFields
  | fullAddressValidation
deriving DecidableEq, Repr

/-- The schema selection in `SingleShippingForm.tsx`'s `validationSchema`:
`shouldHaveCustomValidation(methodId)` picks
`getCustomFormFieldsValidationSchema`, otherwise
`getAddressFormFieldsValidationSchema`. -/
def validationSchema (methodId : Option String) : SchemaChoice :=
  if shouldHaveCustomValidation methodId then .relaxedCustomFields
  else .fullAddressValidation

/-- `getCustomFormFieldsValidationSchema` from the custom form-fields module:
the TEMPORARY-FIX mock schema `object({ customFields: object().nullable(true) })`
that validates every input (`none` is a null `customFields`). -/
def customFormFieldsSchemaValidates (_values : Option (List (String × JVal))) : Bool :=
  true

/-- C2 counterexample: both members of the fixed exclusion set get the full
address-validation schema, while a method outside the set (`affirm`) gets the
relaxed always-valid custom-field schema — the exact opposite of the claim. -/
theorem exclusion_set_gets_full_schema :
    validationSchema (some braintreeAcceleratedCheckoutId) = .fullAddressValidation ∧
      validationSchema (some payPalCommerceAcceleratedCheckoutId) = .fullAddressValidation ∧
      validationSchema (some "affirm") = .relaxedCustomFields := by
  refine ⟨by decide, by decide, by decide⟩

/-- Spec-side selector after amendment: method identifiers in the exclusion
set — and an absent or empty identifier — get the full per-field-type
validation schema; every other identifier gets the relaxed always-valid
custom-field schema. -/
def specSchemaChoice (methodId : Option String) : SchemaChoice :=
  match methodId with
  | none => .fullAddressValidation
  | some m =>
      if m ∈ methodIdsWithoutCustomValidation ∨ m = "" then .fullAddressValidation
      else .relaxedCustomFields

/-- C2 (amended): schema selection is a pure function of the method
identifier, equal to the amended spec-side selector, and the custom-field
schema it hands non-excluded methods accepts every input. -/
theorem validationSchema_characterization :
    (∀ methodId : Option String, validationSchema methodId = specSchemaChoice methodId) ∧
      ∀ values, customFormFieldsSchemaValidates values = true := by
  constructor
  · intro methodId
    cases methodId with
    | none => rfl
    | some m =>
        unfold validationSchema shouldHaveCustomValidation specSchemaChoice
        by_cases h1 : m = ""
        · subst h1
          decide
        · by_cases h2 : m ∈ methodIdsWithoutCustomValidation
          · simp [h1, h2]
          · simp [h1, h2]
  · intro values
    rfl

/-- A consignment as the submit gate sees it: only the presence of a selected
shipping option matters. -/
structure Consignment where
  selectedShippingOption : Option String
deriving DecidableEq, Repr

/-- Modelled from the spec: `hasSelectedShippingOptions(consignments)` — every
consignment has a selected shipping option (the module is outside the
provided sources). -/
def hasSelectedShippingOptions (consignments : List Consignment) : Bool :=
  consignments.all fun c => c.selectedShippingOption.isSome

/-- The props of `SingleShippingForm` that feed the submit gate, plus the
formik validity flag it deliberately ignores. -/
structure SingleShippingProps where
  isLoading : Bool
  consignments : List Consignment
  isValid : Bool
deriving Repr

/-- The `SingleShippingFormState` component state. -/
structure SingleShippingFormState where
  isResettingAddress : Bool
  isUpdatingShippingData : Bool
  hasRequestedShippingOptions : Bool
deriving Repr

/-- `shouldDisableSubmit` from `SingleShippingForm.tsx` (the HEAD side of the
file's unresolved merge conflict, which matches its adjacent comment: form
validity is deliberately not consulted). -/
def shouldDisableSubmit (props : SingleShippingProps)
    (state : SingleShippingFormState) : Bool :=
  props.isLoading || state.isUpdatingShippingData ||
    !hasSelectedShippingOptions props.consignments

/-- C8: submission is disabled exactly while loading, while a debounced remote
update is pending, or while some consignment lacks a selected shipping option;
no other input (form validity, the resetting flag, the
shipping-options-requested flag) influences the result. -/
theorem shouldDisableSubmit_characterization (p p' : SingleShippingProps)
    (s s' : SingleShippingFormState) :
    (shouldDisableSubmit p s = true ↔
      (p.isLoading = true ∨ s.isUpdatingShippingData = true ∨
        hasSelectedShippingOptions p.consignments = false)) ∧
      (p.isLoading = p'.isLoading → p.consignments = p'.consignments →
        s.isUpdatingShippingData = s'.isUpdatingShippingData →
        shouldDisableSubmit p s = shouldDisableSubmit p' s') := by
  constructor
  · unfold shouldDisableSubmit
    simp [Bool.or_eq_true, Bool.not_eq_true', or_assoc]
  · intro h1 h2 h3
    unfold shouldDisableSubmit
    rw [h1, h2, h3]

/-- Closed instance of the C8 theorem: flipping the ignored inputs (validity,
resetting flag, options-requested flag) leaves the submit gate unchanged. -/
theorem shouldDisableSubmit_characterization_witness :
    shouldDisableSubmit ⟨false, [], true⟩ ⟨false, false, false⟩ =
      shouldDisableSubmit ⟨false, [], false⟩ ⟨true, false, true⟩ :=
  (shouldDisableSubmit_characterization ⟨false, [], true⟩ ⟨false, [], false⟩
      ⟨false, false, false⟩ ⟨true, false, true⟩).2 rfl rfl rfl

/-- Modelled from the spec: `mapAddressFromFormValues` — the mechanical
inverse of the form-value mapper (module outside the provided sources). -/
def mapAddressFromFormValues (values : AddressFormValues) : Address :=
  ⟨values.system, values.customFields.getD [], some values.shouldSaveAddress⟩

/-- Modelled from the spec: `isEqualAddress` — semantic address equality,
with an absent second address comparing unequal (module outside the provided
sources). -/
def isEqualAddress (a : Address) (b : Option Address) : Bool :=
  match b with
  | some b₀ => decide (a = b₀)
  | none => false

/-- What one run of `updateAddressWithFormData` in `SingleShippingForm.tsx`
does: the debounced call it schedules (if any) and the updating flag it
leaves behind. -/
structure UpdateAddressOutcome where
  debouncedCall : Option (Address × Bool)
  isUpdatingShippingData : Bool
deriving DecidableEq, Repr

/-- `updateAddressWithFormData(includeShippingOptions)` from
`SingleShippingForm.tsx`: recompute the address from form values, widen
`includeShippingOptions` when the synced address's custom fields differ, and
skip everything when there is no computed address or it equals the last-synced
one. -/
def updateAddressWithFormData (shippingAddress : Option Address)
    (addressForm : Option AddressFormValues) (includeShippingOptions : Bool) :
    UpdateAddressOutcome :=
  let updatedShippingAddress := addressForm.map mapAddressFromFormValues
  let includeOpts :=
    match shippingAddress with
    | some sa =>
        !(decide (updatedShippingAddress.map Address.customFields = some sa.customFields)) ||
          includeShippingOptions
    | none => includeShippingOptions
  match updatedShippingAddress with
  | none => ⟨none, false⟩
  | some u =>
      if isEqualAddress u shippingAddress then ⟨none, false⟩
      else ⟨some (u, includeOpts), true⟩

/-- C4: when the form yields no address, or the address computed from the
form values is semantically equal to the last-synced shipping address, no
debounced remote update is scheduled and `isUpdatingShippingData` stays
unset. -/
theorem equal_address_skips_remote_update (shippingAddress : Option Address)
    (addressForm : Option AddressFormValues) (includeShippingOptions : Bool)
    (h : addressForm = none ∨
      ∃ u, addressForm.map mapAddressFromFormValues = some u ∧
        isEqualAddress u shippingAddress = true) :
    (updateAddressWithFormData shippingAddress addressForm
        includeShippingOptions).debouncedCall = none ∧
      (updateAddressWithFormData shippingAddress addressForm
          includeShippingOptions).isUpdatingShippingData = false := by
  rcases h with h | ⟨u, hu, heq⟩
  · subst h
    exact ⟨rfl, rfl⟩
  · cases addressForm with
    | none => exact absurd hu (by simp)
    | some v =>
        have hv : mapAddressFromFormValues v = u := by simpa using hu
        unfold updateAddressWithFormData
        simp [hv, heq]

/-- Closed instance of the C4 theorem: a form whose computed address equals
the synced address schedules nothing and leaves the flag unset. -/
theorem equal_address_skips_remote_update_witness :
    (updateAddressWithFormData (some ⟨[], [], some true⟩) (some ⟨[], none, true⟩)
        true).debouncedCall = none ∧
      (updateAddressWithFormData (some ⟨[], [], some true⟩) (some ⟨[], none, true⟩)
          true).isUpdatingShippingData = false :=
  equal_address_skips_remote_update (some ⟨[], [], some true⟩) (some ⟨[], none, true⟩) true
    (Or.inr ⟨⟨[], [], some true⟩, by decide, by decide⟩)

/-- The custom-field reset loop repeated in `componentDidUpdate`,
`handleAddressSelect` and `onUseNewAddress` of `SingleShippingForm.tsx`:
checkbox (via `fieldType`) → empty list; date/integer (via the legacy `type`
property) and everything else → `''`. -/
def resetCustomFormFields (fields : List FormField) (values : AddressFormValues) :
    AddressFormValues :=
  match values.customFields with
  | none => values
  | some cf =>
      { values with
        customFields :=
          some ((fields.filter fun f => f.custom).foldl
            (fun acc f =>
              if f.fieldType == some checkboxFieldType then alSet acc f.name (.list [])
              else if f.ftype == some dateFieldType then alSet acc f.name (.str "")
              else if f.ftype == some integerFieldType then alSet acc f.name (.str "")
              else alSet acc f.name (.str "")) cf) }

/-- The observable outcome of one run of `handleAddressSelect` or
`onUseNewAddress`: the resetting flag after the `finally`, the errors passed
to `onUnhandledError`, and the shipping-address form values written by
`setValues` (when the remote call succeeded). -/
structure HandlerOutcome where
  isResettingAddress : Bool
  raisedErrors : List String
  newShippingAddressValues : Option AddressFormValues
deriving Repr

/-- `handleAddressSelect(address)` from `SingleShippingForm.tsx`, indexed by
the outcome of the awaited `updateAddress` call: try/catch with the flag
cleared in `finally`. -/
def handleAddressSelect (fields : List FormField) (address : Address)
    (updateResult : Except String Unit) : HandlerOutcome :=
  match updateResult with
  | .ok _ =>
      ⟨false, [],
        some (resetCustomFormFields fields (mapAddressToFormValues fields (some address)))⟩
  | .error e => ⟨false, [e], none⟩

/-- `onUseNewAddress()` from `SingleShippingForm.tsx`, indexed by the outcome
of the awaited `deleteConsignments` call. -/
def onUseNewAddress (fields : List FormField)
    (deleteResult : Except String (Option Address)) : HandlerOutcome :=
  match deleteResult with
  | .ok address =>
      ⟨false, [],
        some (resetCustomFormFields fields (mapAddressToFormValues fields address))⟩
  | .error e => ⟨false, [e], none⟩

/-- The observable outcome of the debounced callback body built in the
`SingleShippingForm` constructor: the updating flag after the `finally`, the
options-requested flag, and the `updateAddress` call it made. -/
structure DebouncedBodyOutcome where
  isUpdatingShippingData : Bool
  hasRequestedShippingOptions : Bool
  updateAddressCalls : List (Address × Bool)
deriving Repr

/-- The async body handed to `debounce` in the `SingleShippingForm`
constructor: await `updateAddress`, on success record the options request,
and clear `isUpdatingShippingData` in `finally` whatever happened. -/
def debouncedUpdateAddressBody (updateResult : Except String Unit) (address : Address)
    (includeShippingOptions : Bool) (prevHasRequested : Bool) : DebouncedBodyOutcome :=
  match updateResult with
  | .ok _ =>
      ⟨false, if includeShippingOptions then true else prevHasRequested,
        [(address, includeShippingOptions)]⟩
  | .error _ => ⟨false, prevHasRequested, [(address, includeShippingOptions)]⟩

/-- C7: whether the awaited remote operation resolves or rejects,
`handleAddressSelect` and `onUseNewAddress` end with `isResettingAddress`
false and the debounced update body ends with `isUpdatingShippingData`
false — no outcome leaves a loading flag stuck at true. -/
theorem loading_flags_cleared_on_completion (fields : List FormField) (address : Address)
    (updateResult : Except String Unit) (deleteResult : Except String (Option Address))
    (bodyResult : Except String Unit) (addr : Address) (includeOpts prev : Bool) :
    (handleAddressSelect fields address updateResult).isResettingAddress = false ∧
      (onUseNewAddress fields deleteResult).isResettingAddress = false ∧
      (debouncedUpdateAddressBody bodyResult addr includeOpts prev).isUpdatingShippingData
        = false := by
  refine ⟨?_, ?_, ?_⟩
  · cases updateResult <;> rfl
  · cases deleteResult <;> rfl
  · cases bodyResult <;> rfl

/-- Modelled from the spec: `isValidAddress(address, fields)` — the address
validates against the active field set when every required field carries a
non-empty value (module outside the provided sources). -/
def isValidAddress (address : Address) (fields : List FormField) : Bool :=
  fields.all fun f =>
    !f.required ||
      (match (if f.custom then alGet address.customFields f.name
              else alGet address.fields f.name) with
       | some (.str s) => s ≠ ""
       | some _ => true
       | none => false)

/-- A shippable unit of the multi-address flow: stable key, cart line-item
id, and the address assigned so far. -/
structure ShippableItem where
  key : String
  itemId : String
  address : Option Address
deriving DecidableEq, Repr

/-- The cart snapshot a checkout response carries. -/
structure Cart where
  lineItemIds : List String
deriving DecidableEq, Repr

/-- The slice of the checkout-state selectors (`data.getCart()`,
`data.getConsignments()`) that reconciliation reads. -/
structure CheckoutData where
  cart : Option Cart
  consignments : Option (List Consignment)
deriving DecidableEq, Repr

/-- Modelled from the spec: `updateShippableItems` — reconcile the working
item list against the freshly returned cart/consignment state, keyed by
stable item identity; without returned cart data no update is produced. -/
def updateShippableItems (items : List ShippableItem) (key : String) (address : Address)
    (cart : Option Cart) (consignments : Option (List Consignment)) :
    Option (List ShippableItem) :=
  match cart, consignments with
  | some _, some _ =>
      some (items.map fun it =>
        if it.key = key then { it with address := some address } else it)
  | _, _ => none

/-- `syncItems(key, address, data)` from `MultiShippingForm.tsx`: apply the
reconciled list when one was produced, otherwise keep the current items. -/
def syncItems (items : List ShippableItem) (key : String) (address : Address)
    (data : CheckoutData) : List ShippableItem :=
  match updateShippableItems items key address data.cart data.consignments with
  | some items₂ => items₂
  | none => items

/-- The errors `MultiShippingForm` routes through `onUnhandledError`. -/
inductive MultiShippingError
  | assignItemInvalidAddress
  | assignItemFailed (inner : String)
deriving DecidableEq, Repr

/-- One line item of a consignment-assignment payload. -/
structure AssignLineItem where
  itemId : String
  quantity : Nat
deriving DecidableEq, Repr

/-- The payload of the remote `assignItem` call. -/
structure ConsignmentAssignmentRequest where
  address : Address
  lineItems : List AssignLineItem
deriving DecidableEq, Repr

/-- The observable outcome of one `handleSelectAddress` run: the item list
afterwards, the errors surfaced, and the remote assignment calls issued. -/
structure SelectAddressOutcome where
  items : List ShippableItem
  raisedErrors : List MultiShippingError
  assignItemCalls : List ConsignmentAssignmentRequest
deriving DecidableEq, Repr

/-- `handleSelectAddress(address, itemId, itemKey)` from
`MultiShippingForm.tsx`, indexed by the outcome the remote `assignItem` call
would produce: validate locally first, then assign a single-line-item
quantity-1 payload and reconcile, wrapping a remote failure. -/
def handleSelectAddress (fields : List FormField)
    (assignResult : Except String CheckoutData) (items : List ShippableItem)
    (address : Address) (itemId itemKey : String) : SelectAddressOutcome :=
  if !isValidAddress address fields then
    ⟨items, [.assignItemInvalidAddress], []⟩
  else
    let payload : ConsignmentAssignmentRequest := ⟨address, [⟨itemId, 1⟩]⟩
    match assignResult with
    | .ok data => ⟨syncItems items itemKey address data, [], [payload]⟩
    | .error e => ⟨items, [.assignItemFailed e], [payload]⟩

/-- C5: for every address that fails local validation against the active
field set, `handleSelectAddress` surfaces exactly the invalid-address error,
issues zero remote assignment calls, and leaves the item list unchanged. -/
theorem invalid_address_select_no_remote_call (fields : List FormField)
    (assignResult : Except String CheckoutData) (items : List ShippableItem)
    (address : Address) (itemId itemKey : String)
    (h : isValidAddress address fields = false) :
    (handleSelectAddress fields assignResult items address itemId itemKey).raisedErrors =
        [.assignItemInvalidAddress] ∧
      (handleSelectAddress fields assignResult items address itemId itemKey).assignItemCalls
          = [] ∧
      (handleSelectAddress fields assignResult items address itemId itemKey).items =
        items := by
  unfold handleSelectAddress
  rw [h]
  exact ⟨rfl, rfl, rfl⟩

/-- Closed instance of the C5 theorem: a required `firstName` with no value
fails validation, raises the invalid-address error, and calls nothing. -/
theorem invalid_address_select_witness :
    (handleSelectAddress [⟨"firstName", false, some "text", none, none, true⟩]
          (.error "boom") [] ⟨[], [], none⟩ "42" "k").raisedErrors =
        [.assignItemInvalidAddress] ∧
      (handleSelectAddress [⟨"firstName", false, some "text", none, none, true⟩]
            (.error "boom") [] ⟨[], [], none⟩ "42" "k").assignItemCalls = [] ∧
      (handleSelectAddress [⟨"firstName", false, some "text", none, none, true⟩]
            (.error "boom") [] ⟨[], [], none⟩ "42" "k").items = [] :=
  invalid_address_select_no_remote_call
    [⟨"firstName", false, some "text", none, none, true⟩] (.error "boom") []
    ⟨[], [], none⟩ "42" "k" (by decide)

/-- The `{ key, itemId }` pair remembered while the add-address modal is
open (`itemAddingAddress`). -/
structure ShippableItemId where
  key : String
  itemId : String
deriving DecidableEq, Repr

/-- The `MultiShippingFormState` component state. -/
structure MultiShippingFormState where
  items : List ShippableItem
  itemAddingAddress : Option ShippableItemId
  createCustomerAddressError : Option String
deriving DecidableEq, Repr

/-- The observable outcome of one `handleSaveAddress` run. -/
structure SaveAddressOutcome where
  state : MultiShippingFormState
  raisedErrors : List MultiShippingError
  assignItemCalls : List ConsignmentAssignmentRequest
  createCustomerAddressCalls : List Address
deriving DecidableEq, Repr

/-- `handleSaveAddress(addressFormValues)` from `MultiShippingForm.tsx`,
indexed by the outcomes of the remote `assignItem` and
`createCustomerAddress` calls: map the form values to an address, run the
selection flow, then attempt best-effort persistence — a persistence failure
only sets `createCustomerAddressError`; finally the modal state is cleared. -/
def handleSaveAddress (fields : List FormField)
    (assignResult : Except String CheckoutData) (createResult : Except String Unit)
    (st : MultiShippingFormState) (formValues : AddressFormValues) : SaveAddressOutcome :=
  match st.itemAddingAddress with
  | none => ⟨st, [], [], []⟩
  | some iaa =>
      let shippingAddress := mapAddressFromFormValues formValues
      let sel :=
        handleSelectAddress fields assignResult st.items shippingAddress iaa.itemId iaa.key
      let newErr :=
        match createResult with
        | .ok _ => st.createCustomerAddressError
        | .error e => some e
      ⟨⟨sel.items, none, newErr⟩, sel.raisedErrors, sel.assignItemCalls, [shippingAddress]⟩

/-- C6: when the item assignment succeeds and the subsequent best-effort
persistence of the address as a reusable customer address throws, the
reconciled item list from the assignment is retained unchanged, no error is
routed through `onUnhandledError`, and only the separate
`createCustomerAddressError` state is set. -/
theorem persist_failure_retains_assignment (fields : List FormField) (data : CheckoutData)
    (e : String) (st : MultiShippingFormState) (formValues : AddressFormValues)
    (iaa : ShippableItemId) (hia : st.itemAddingAddress = some iaa)
    (hvalid : isValidAddress (mapAddressFromFormValues formValues) fields = true) :
    (handleSaveAddress fields (.ok data) (.error e) st formValues).state.items =
        syncItems st.items iaa.key (mapAddressFromFormValues formValues) data ∧
      (handleSaveAddress fields (.ok data) (.error e) st
          formValues).state.createCustomerAddressError = some e ∧
      (handleSaveAddress fields (.ok data) (.error e) st formValues).raisedErrors = [] := by
  simp [handleSaveAddress, hia, handleSelectAddress, hvalid]

/-- Closed instance of the C6 theorem: with a pending item, a succeeding
assignment and a failing persistence call, the assigned item list stands and
the persistence error is recorded separately. -/
theorem persist_failure_retains_assignment_witness :
    (handleSaveAddress [] (.ok ⟨some ⟨[]⟩, some []⟩) (.error "persist-failed")
          ⟨[⟨"k", "42", none⟩], some ⟨"k", "42"⟩, none⟩ ⟨[], none, true⟩).state.items =
        syncItems [⟨"k", "42", none⟩] "k" (mapAddressFromFormValues ⟨[], none, true⟩)
          ⟨some ⟨[]⟩, some []⟩ ∧
      (handleSaveAddress [] (.ok ⟨some ⟨[]⟩, some []⟩) (.error "persist-failed")
            ⟨[⟨"k", "42", none⟩], some ⟨"k", "42"⟩, none⟩
            ⟨[], none, true⟩).state.createCustomerAddressError = some "persist-failed" ∧
      (handleSaveAddress [] (.ok ⟨some ⟨[]⟩, some []⟩) (.error "persist-failed")
            ⟨[⟨"k", "42", none⟩], some ⟨"k", "42"⟩, none⟩
            ⟨[], none, true⟩).raisedErrors = [] :=
  persist_failure_retains_assignment [] ⟨some ⟨[]⟩, some []⟩ "persist-failed"
    ⟨[⟨"k", "42", none⟩], some ⟨"k", "42"⟩, none⟩ ⟨[], none, true⟩ ⟨"k", "42"⟩ rfl
    (by decide)

/-- `SHIPPING_AUTOSAVE_DELAY` from `SingleShippingForm.tsx` (milliseconds):
the default debounce window. -/
def SHIPPING_AUTOSAVE_DELAY : Nat := 1700

/-- An event the debounced updater observes: a (valid) form edit scheduling a
payload, or one clock tick. -/
inductive DebEvent (α : Type)
  | edit (payload : α)
  | tick
deriving DecidableEq

/-- The single-slot debounce cell: at most one pending payload and the ticks
left until it fires. -/
structure DebounceState (α : Type) where
  pending : Option α
  remaining : Nat
deriving DecidableEq, Repr

/-- A debounce run: the current cell plus the calls fired so far, in order. -/
structure DebounceRun (α : Type) where
  st : DebounceState α
  fired : List α
deriving DecidableEq, Repr

/-- One step of the trailing-edge `debounce(fn, delay)` wrapping
`updateAddress` in the `SingleShippingForm` constructor, modelled as the
spec's single-slot pending-request cell: a call overwrites the pending
payload and resets the countdown; a tick counts down and fires the pending
payload once the delay has elapsed since the last call. -/
def debStep {α : Type} (delay : Nat) (r : DebounceRun α) : DebEvent α → DebounceRun α
  | .edit a => ⟨⟨some a, delay⟩, r.fired⟩
  | .tick =>
      match r.st.pending with
      | some p =>
          if r.st.remaining ≤ 1 then ⟨⟨none, 0⟩, r.fired ++ [p]⟩
          else ⟨⟨some p, r.st.remaining - 1⟩, r.fired⟩
      | none => r

/-- Run the debounce cell over an event trace from the idle state. -/
def debRun {α : Type} (delay : Nat) (events : List (DebEvent α)) : DebounceRun α :=
  events.foldl (debStep delay) ⟨⟨none, 0⟩, []⟩

/-- How many debounced calls are pending: 0 or 1 by construction. -/
def pendingCount {α : Type} (st : DebounceState α) : Nat :=
  match st.pending with
  | some _ => 1
  | none => 0

lemma ticks_no_fire {α : Type} (delay k : Nat) (p : α) (fired : List α) :
    ∀ r : Nat, k < r →
      (List.replicate k (DebEvent.tick : DebEvent α)).foldl (debStep delay)
          ⟨⟨some p, r⟩, fired⟩ = ⟨⟨some p, r - k⟩, fired⟩ := by
  induction k with
  | zero => intro r _; simp
  | succ n ih =>
      intro r hr
      rw [List.replicate_succ, List.foldl_cons]
      have hstep : debStep delay ⟨⟨some p, r⟩, fired⟩ .tick = ⟨⟨some p, r - 1⟩, fired⟩ := by
        have h1 : ¬ r ≤ 1 := by omega
        simp [debStep, h1]
      rw [hstep, ih (r - 1) (by omega)]
      have h2 : r - 1 - n = r - (n + 1) := by omega
      rw [h2]

lemma ticks_fire {α : Type} (delay : Nat) (p : α) (fired : List α) :
    ∀ r : Nat, 1 ≤ r →
      (List.replicate r (DebEvent.tick : DebEvent α)).foldl (debStep delay)
          ⟨⟨some p, r⟩, fired⟩ = ⟨⟨none, 0⟩, fired ++ [p]⟩ := by
  intro r hr
  cases r with
  | zero => omega
  | succ n =>
      rw [List.replicate_succ', List.foldl_append]
      rw [ticks_no_fire delay n p fired (n + 1) (by omega)]
      have h1 : n + 1 - n = 1 := by omega
      rw [h1]
      simp [debStep]

/-- C3: two consecutive valid edits within the debounce window coalesce into
exactly one fired remote update, carrying the payload of the second edit; and
the debounce cell never holds more than one pending call on any event
trace. -/
theorem debounced_edits_coalesce (delay k : Nat) (a₁ a₂ : Address) (hk : k < delay) :
    (debRun delay
          ([DebEvent.edit a₁] ++ List.replicate k DebEvent.tick ++ [DebEvent.edit a₂] ++
            List.replicate delay DebEvent.tick)).fired = [a₂] ∧
      ∀ events : List (DebEvent Address), pendingCount (debRun delay events).st ≤ 1 := by
  constructor
  · unfold debRun
    rw [List.foldl_append, List.foldl_append, List.foldl_append]
    rw [show
      List.foldl (debStep delay) (⟨⟨none, 0⟩, []⟩ : DebounceRun Address) [DebEvent.edit a₁] =
        ⟨⟨some a₁, delay⟩, []⟩ from rfl]
    rw [ticks_no_fire delay k a₁ [] delay hk]
    rw [show
      List.foldl (debStep delay) (⟨⟨some a₁, delay - k⟩, []⟩ : DebounceRun Address)
          [DebEvent.edit a₂] = ⟨⟨some a₂, delay⟩, []⟩ from rfl]
    rw [ticks_fire delay a₂ [] delay (by omega)]
    rfl
  · intro events
    rcases hp : (debRun delay events).st.pending with _ | p <;> simp [pendingCount, hp]

/-- Closed instance of the C3 theorem: with a window of 2 ticks, an edit, one
tick, a second edit and a full window of ticks fire exactly the second
payload. -/
theorem debounced_edits_coalesce_witness :
    (debRun 2
          ([DebEvent.edit (⟨[("city", JVal.str "A")], [], none⟩ : Address)] ++
            List.replicate 1 DebEvent.tick ++
            [DebEvent.edit (⟨[("city", JVal.str "B")], [], none⟩ : Address)] ++
            List.replicate 2 DebEvent.tick)).fired =
      [⟨[("city", JVal.str "B")], [], none⟩] :=
  (debounced_edits_coalesce 2 1 ⟨[("city", JVal.str "A")], [], none⟩
      ⟨[("city", JVal.str "B")], [], none⟩ (by decide)).1
